import Mathlib

/-!
Shallow embedding of `Telegram/SourceFiles/editor/scene_item_base.cpp`
(namespace `Editor`, class `ItemBase`).

Modelling conventions:
* Qt `qreal`/`float64` coordinate arithmetic is embedded as exact rational
  arithmetic over `ℚ`; C++ `int` values are `ℤ`.
* `std::atan2(y, x) * 180 / M_PI` and `QGraphicsItem::mapToScene` are
  toolkit/libm functions outside this file; they are abstracted as parameters
  (`atan2Deg`, `toScene`) of a `Cfg` record, so every theorem quantifies over
  all possible behaviours of those externals.
* The style constants `st::photoEditorItemMinSize`, `st::photoEditorItemMaxSize`,
  `st::photoEditorItemHandleSize` and the current zoom come from outside this
  file and are likewise `Cfg` parameters.
* Inherited `QGraphicsItem::mouse*Event` / `hoverMoveEvent` fallbacks live in
  the toolkit, not in this file; they cannot touch `ItemBase`'s private fields,
  so they are modelled as the identity on the modelled item state (for the
  not-handling mouse-move drag, the toolkit-chosen new position is supplied
  in the event as `dragTo`).
* The fields of `ItemBase` are declared in `scene_item_base.h`, which is not
  part of the sources here; the state record below is modelled from this
  file's uses of the fields, with coordinates kept as exact rationals.
-/

namespace Editor

/-- `constexpr auto kSnapAngle = 45.;` -/
def kSnapAngle : ℚ := 45

/-- `Normalized`: `angle + ((std::abs(angle) < 360) ? 0 : (-360 * (angle < 0 ? -1 : 1)))`. -/
def Normalized (angle : ℚ) : ℚ :=
  angle + (if |angle| < 360 then 0 else -360 * (if angle < 0 then -1 else 1))

/-- C++ `int(q)` cast of a floating value: truncation toward zero. -/
def cppInt (q : ℚ) : ℤ :=
  if 0 ≤ q then ⌊q⌋ else ⌈q⌉

/-- C++ `std::round`: rounding half away from zero. -/
def cppRound (q : ℚ) : ℤ :=
  if 0 ≤ q then ⌊q + 1/2⌋ else ⌈q - 1/2⌉

/-- C++ `std::clamp(v, lo, hi)` (requires `lo ≤ hi` to be meaningful). -/
def cppClamp (v lo hi : ℤ) : ℤ :=
  if v < lo then lo else if hi < v then hi else v

/-- Qt pen line styles used in this file. -/
inductive PenStyle
  | DashLine
  | SolidLine
  deriving DecidableEq

/-- Pen brush colors used in this file. -/
inductive PenColor
  | white
  | gray
  deriving DecidableEq

/-- A Qt pen, reduced to the attributes this file manipulates. -/
structure QPen where
  color : PenColor
  style : PenStyle
  deriving DecidableEq

/-- `PenStyled(pen, style)`: copy the pen and set its style. -/
def PenStyled (pen : QPen) (style : PenStyle) : QPen :=
  { pen with style := style }

/-- `_selectPen`: white dashed pen from the `ItemBase` constructor. -/
def selectPen : QPen := ⟨PenColor.white, PenStyle.DashLine⟩

/-- `_selectPenInactive`: gray dashed pen from the `ItemBase` constructor. -/
def selectPenInactive : QPen := ⟨PenColor.gray, PenStyle.DashLine⟩

/-- A 2D point with exact rational coordinates (models `QPointF`). -/
structure QPointF where
  x : ℚ
  y : ℚ
  deriving DecidableEq

/-- `QPointF` negation, models `mousePos * -1`. -/
def QPointF.neg (p : QPointF) : QPointF := ⟨-p.x, -p.y⟩

/-- Models `QRectF(x, y, w, h)`. -/
structure QRectF where
  x : ℚ
  y : ℚ
  w : ℚ
  h : ℚ
  deriving DecidableEq

/-- Models `QMarginsF(left, top, right, bottom)`. -/
structure QMarginsF where
  left : ℚ
  top : ℚ
  right : ℚ
  bottom : ℚ
  deriving DecidableEq

/-- `QRectF::center()`. -/
def QRectF.center (r : QRectF) : QPointF :=
  ⟨r.x + r.w / 2, r.y + r.h / 2⟩

/-- Qt `QRectF + QMarginsF` (`marginsAdded`). -/
def QRectF.marginsAdded (r : QRectF) (m : QMarginsF) : QRectF :=
  ⟨r.x - m.left, r.y - m.top, r.w + m.left + m.right, r.h + m.top + m.bottom⟩

/-- Qt `QRectF - QMarginsF` (`marginsRemoved`). -/
def QRectF.marginsRemoved (r : QRectF) (m : QMarginsF) : QRectF :=
  ⟨r.x + m.left, r.y + m.top, r.w - m.left - m.right, r.h - m.top - m.bottom⟩

/-- `QRectF::contains(const QPointF &)`, following the Qt implementation:
normalizes a negative width/height, returns `false` for a null span, and is
inclusive on all edges. -/
def QRectF.contains (r : QRectF) (p : QPointF) : Bool :=
  let l := if r.w < 0 then r.x + r.w else r.x
  let rgt := if r.w < 0 then r.x else r.x + r.w
  if l = rgt then false
  else if p.x < l ∨ rgt < p.x then false
  else
    let t := if r.h < 0 then r.y + r.h else r.y
    let b := if r.h < 0 then r.y else r.y + r.h
    if t = b then false
    else if p.y < t ∨ b < p.y then false
    else true

/-- `ItemBase::HandleType`. -/
inductive HandleType
  | None
  | Left
  | Right
  deriving DecidableEq

/-- Mouse buttons distinguished by this file. -/
inductive MouseButton
  | LeftButton
  | RightButton
  deriving DecidableEq

/-- Cursor shapes set by this file. -/
inductive CursorShape
  | ArrowCursor
  | OpenHandCursor
  | ClosedHandCursor
  deriving DecidableEq

/-- The state of one `ItemBase`. The private fields are declared in
`scene_item_base.h` (not among the sources); they are modelled from this
file's uses, with all coordinates as exact rationals. -/
structure Item where
  posX : ℚ
  posY : ℚ
  horizontalSize : ℚ
  verticalSize : ℚ
  aspectRatio : ℚ
  scaledHandleSize : ℚ
  scaledInnerMargins : QMarginsF
  handle : HandleType
  rotation : ℚ
  flipped : Bool
  selected : Bool
  zValue : ℤ
  cursor : CursorShape
  deriving DecidableEq

/-- External context of the handlers: libm/toolkit functions and style
constants that are referenced by `scene_item_base.cpp` but defined outside it.
`atan2Deg dy dx` models `std::atan2(dy, dx) * 180 / M_PI`; `toScene` models
`mapToScene` for the item's current scene transform. -/
structure Cfg where
  atan2Deg : ℚ → ℚ → ℚ
  toScene : QPointF → QPointF
  minSize : ℤ
  maxSize : ℤ
  handleSize : ℚ
  zoom : ℚ

/-- `ItemBase::innerRect()`. -/
def innerRect (s : Item) : QRectF :=
  ⟨-s.horizontalSize / 2, -s.verticalSize / 2, s.horizontalSize, s.verticalSize⟩

/-- `ItemBase::boundingRect()`: `innerRect() + _scaledInnerMargins`. -/
def boundingRect (s : Item) : QRectF :=
  (innerRect s).marginsAdded s.scaledInnerMargins

/-- `ItemBase::contentRect()`: `innerRect() - _scaledInnerMargins`. -/
def contentRect (s : Item) : QRectF :=
  (innerRect s).marginsRemoved s.scaledInnerMargins

/-- `ItemBase::rightHandleRect()`. -/
def rightHandleRect (s : Item) : QRectF :=
  ⟨s.horizontalSize / 2 - s.scaledHandleSize / 2,
    0 - s.scaledHandleSize / 2,
    s.scaledHandleSize,
    s.scaledHandleSize⟩

/-- `ItemBase::leftHandleRect()`. -/
def leftHandleRect (s : Item) : QRectF :=
  ⟨-s.horizontalSize / 2 - s.scaledHandleSize / 2,
    0 - s.scaledHandleSize / 2,
    s.scaledHandleSize,
    s.scaledHandleSize⟩

/-- `ItemBase::isHandling()`: `_handle != HandleType::None`. -/
def isHandling (s : Item) : Bool :=
  s.handle ≠ HandleType.None

/-- `ItemBase::handleType(pos)`: right handle first, then left, else none. -/
def handleType (s : Item) (pos : QPointF) : HandleType :=
  if (rightHandleRect s).contains pos then HandleType.Right
  else if (leftHandleRect s).contains pos then HandleType.Left
  else HandleType.None

/-- `ItemBase::updateVerticalSize()`: `_verticalSize = _horizontalSize * _aspectRatio`. -/
def updateVerticalSize (s : Item) : Item :=
  { s with verticalSize := s.horizontalSize * s.aspectRatio }

/-- `ItemBase::setAspectRatio(aspectRatio)`. -/
def setAspectRatio (s : Item) (ratio : ℚ) : Item :=
  updateVerticalSize { s with aspectRatio := ratio }

/-- `ItemBase::flipped()`. -/
def flipped (s : Item) : Bool := s.flipped

/-- `ItemBase::performFlip()`: empty in the base class. -/
def performFlip (s : Item) : Item := s

/-- `ItemBase::setFlip(value)`: flips only when the value changes. -/
def setFlip (s : Item) (value : Bool) : Item :=
  if s.flipped ≠ value then { performFlip s with flipped := value } else s

/-- `ItemBase::size()`: returns `_horizontalSize`. -/
def size (s : Item) : ℚ := s.horizontalSize

/-- The raw pointer angle of the rotate step of `mouseMoveEvent`:
`Normalized((isLeft ? 180 : 0) + (std::atan2(diff.y(), diff.x()) * 180 / M_PI))`
with `diff = mapToScene(mousePos) - mapToScene(boundingRect().center())`. -/
def dragAngle (cfg : Cfg) (s : Item) (mousePos : QPointF) : ℚ :=
  let origin := cfg.toScene (boundingRect s).center
  let pos := cfg.toScene mousePos
  let diffX := pos.x - origin.x
  let diffY := pos.y - origin.y
  Normalized ((if s.handle = HandleType.Left then 180 else 0)
    + cfg.atan2Deg diffY diffX)

/-- `ItemBase::mouseMoveEvent`. When a handle is active: optional resize
(no Shift), then rotate (snapped under Shift). Otherwise the inherited
`QGraphicsItem::mouseMoveEvent` performs the toolkit drag, which moves the
item to the toolkit-chosen position `dragTo` and touches no `ItemBase` field. -/
def mouseMoveEvent (cfg : Cfg) (s : Item) (mousePos : QPointF)
    (shift : Bool) (dragTo : QPointF) : Item :=
  if isHandling s then
    let isLeft := s.handle = HandleType.Left
    let s1 :=
      if ¬shift then
        let p := if isLeft then mousePos.neg else mousePos
        let dx := cppInt (2 * p.x)
        let dy := cppInt (2 * p.y)
        updateVerticalSize
          { s with horizontalSize :=
              ((cppClamp (if dx > dy then dx else dy) cfg.minSize cfg.maxSize : ℤ) : ℚ) }
      else s
    let angle := dragAngle cfg s1 mousePos
    { s1 with rotation :=
        if shift then (cppRound (angle / kSnapAngle) : ℚ) * kSnapAngle else angle }
  else
    { s with posX := dragTo.x, posY := dragTo.y }

/-- `ItemBase::hoverMoveEvent`: updates only the cursor. -/
def hoverMoveEvent (s : Item) (pos : QPointF) : Item :=
  { s with cursor :=
      if isHandling s then CursorShape.ClosedHandCursor
      else if handleType s pos ≠ HandleType.None ∧ s.selected then
        CursorShape.OpenHandCursor
      else CursorShape.ArrowCursor }

/-- One drawing command issued by `ItemBase::paint`. -/
inductive PaintOp
  | setPen (pen : QPen)
  | setBrush
  | drawRect (r : QRectF)
  | drawEllipse (r : QRectF)
  deriving DecidableEq

/-- `ItemBase::paint`: the sequence of drawing commands issued to the painter,
as a function of the style option's `State_Selected` and `State_HasFocus`
bits. `setBrush` stands for `setBrush(st::photoEditorItemBaseHandleFg)`. -/
def paint (s : Item) (stateSelected stateHasFocus : Bool) : List PaintOp :=
  if ¬stateSelected then []
  else
    let pen := if stateHasFocus then selectPen else selectPenInactive
    [PaintOp.setPen pen,
      PaintOp.drawRect (innerRect s),
      PaintOp.setPen (PenStyled pen PenStyle.SolidLine),
      PaintOp.setBrush,
      PaintOp.drawEllipse (rightHandleRect s),
      PaintOp.drawEllipse (leftHandleRect s)]

/-- The scene-level state around one item: the item itself, whether it is
attached to a scene (`scene() != nullptr`), the other items of that scene,
and the shared z counter `*_lastZ`. -/
structure EditorState where
  self : Item
  attached : Bool
  others : List Item
  lastZ : ℤ

/-- `QGraphicsScene::clearSelection` effect on one item. -/
def deselect (it : Item) : Item := { it with selected := false }

/-- `ItemBase::mousePressEvent`: raises the z value for every button, grabs a
handle on a left press, and sets the closed-hand cursor when handling; the
inherited fallback touches no modelled field. -/
def mousePressEvent (st : EditorState) (pos : QPointF) (button : MouseButton) :
    EditorState :=
  let s := { st.self with zValue := st.lastZ }
  let s := if button = MouseButton.LeftButton
    then { s with handle := handleType s pos } else s
  let s := if isHandling s then { s with cursor := CursorShape.ClosedHandCursor } else s
  { st with self := s, lastZ := st.lastZ + 1 }

/-- `ItemBase::mouseReleaseEvent`: a left release while handling drops the
handle; everything else goes to the inherited fallback. -/
def mouseReleaseEvent (st : EditorState) (button : MouseButton) : EditorState :=
  if button = MouseButton.LeftButton ∧ isHandling st.self then
    { st with self := { st.self with handle := HandleType.None } }
  else st

/-- The actions of the popup menu built by `ItemBase::contextMenuEvent`,
in source order. -/
inductive MenuAction
  | deleteItem
  | flipItem
  | duplicateItem
  deriving DecidableEq

/-- `ItemBase::contextMenuEvent`: selects the item if needed (clearing the
scene's selection first) and builds the popup menu; returns the new state and
the menu's action list. -/
def contextMenuEvent (st : EditorState) : EditorState × List MenuAction :=
  let st :=
    if ¬st.self.selected ∧ st.attached then
      { st with
        self := { deselect st.self with selected := true },
        others := st.others.map deselect }
    else st
  (st, [MenuAction.deleteItem, MenuAction.flipItem, MenuAction.duplicateItem])

/-- The delete action: `s->removeItem(this)` when a scene is attached. -/
def deleteAction (st : EditorState) : EditorState :=
  if st.attached then { st with attached := false } else st

/-- The flip action: `setFlip(!flipped())`. -/
def flipAction (st : EditorState) : EditorState :=
  { st with self := setFlip st.self (!flipped st.self) }

/-- The `ItemBase` constructor, called by the subclass `duplicate`
implementations with `(zoom, lastZ, size, x, y)`. Its signature is
`ItemBase(..., int size, int x, int y)`, so the `float64` arguments of the
duplicate call are truncated toward zero at this boundary; it stores the
horizontal size and position, takes the next z value, computes the scaled
handle size and margins from the current zoom, and leaves the remaining
fields default (`scene_item_base.h` defaults, modelled as zero/one/unset). -/
def itemCtor (cfg : Cfg) (lastZ : ℤ) (sz x y : ℚ) : Item :=
  let sh := cfg.handleSize / cfg.zoom
  { posX := ((cppInt x : ℤ) : ℚ)
    posY := ((cppInt y : ℤ) : ℚ)
    horizontalSize := ((cppInt sz : ℤ) : ℚ)
    verticalSize := 0
    aspectRatio := 1
    scaledHandleSize := sh
    scaledInnerMargins := ⟨sh / 2, sh / 2, sh / 2, sh / 2⟩
    handle := HandleType.None
    rotation := 0
    flipped := false
    selected := false
    zValue := lastZ
    cursor := CursorShape.ArrowCursor }

/-- The item created by the duplicate action: `duplicate(zoom, lastZ,
_horizontalSize, scenePos().x() + _horizontalSize / 3, scenePos().y() +
_verticalSize / 3)` followed by `setFlip(flipped())`, `setRotation(rotation())`
and `setSelected(true)`. -/
def duplicatedItem (cfg : Cfg) (st : EditorState) : Item :=
  let ni := itemCtor cfg st.lastZ st.self.horizontalSize
    (st.self.posX + st.self.horizontalSize / 3)
    (st.self.posY + st.self.verticalSize / 3)
  let ni := setFlip ni (flipped st.self)
  let ni := { ni with rotation := st.self.rotation }
  { ni with selected := true }

/-- The duplicate action: when a scene is attached, creates the duplicate,
clears the scene's selection, selects the new item and adds it to the scene. -/
def duplicateAction (cfg : Cfg) (st : EditorState) : EditorState :=
  if st.attached then
    { st with
      self := deselect st.self
      others := st.others.map deselect ++ [duplicatedItem cfg st]
      lastZ := st.lastZ + 1 }
  else st

/-- Dispatch of the three context-menu actions. -/
def applyMenuAction (cfg : Cfg) (st : EditorState) : MenuAction → EditorState
  | MenuAction.deleteItem => deleteAction st
  | MenuAction.flipItem => flipAction st
  | MenuAction.duplicateItem => duplicateAction cfg st

/-- Every entry point of `scene_item_base.cpp` that can run on a live item:
the event-handler overrides and the context-menu action lambdas. -/
inductive Event
  | mouseMove (pos : QPointF) (shift : Bool) (dragTo : QPointF)
  | mousePress (pos : QPointF) (button : MouseButton)
  | mouseRelease (button : MouseButton)
  | hoverMove (pos : QPointF)
  | contextMenu
  | menuAct (a : MenuAction)
  | paintReq (stateSelected stateHasFocus : Bool)

/-- Whether an event is a mouse-move event. -/
def Event.isMouseMove : Event → Bool
  | Event.mouseMove _ _ _ => true
  | _ => false

/-- One step of the event loop restricted to this file's handlers. `paint`
draws but does not change the state. -/
def applyEvent (cfg : Cfg) (st : EditorState) : Event → EditorState
  | Event.mouseMove pos shift dragTo =>
      { st with self := mouseMoveEvent cfg st.self pos shift dragTo }
  | Event.mousePress pos button => mousePressEvent st pos button
  | Event.mouseRelease button => mouseReleaseEvent st button
  | Event.hoverMove pos => { st with self := hoverMoveEvent st.self pos }
  | Event.contextMenu => (contextMenuEvent st).1
  | Event.menuAct a => applyMenuAction cfg st a
  | Event.paintReq _ _ => st

/-- The three fields related by the aspect-ratio invariant. -/
def sizeState (s : Item) : ℚ × ℚ × ℚ :=
  (s.horizontalSize, s.verticalSize, s.aspectRatio)

/-! Concrete sample data used by the witnesses. -/

/-- A concrete external context: identity scene transform, a constant 90°
angle oracle, and the default editor style metrics. -/
def cfgW : Cfg :=
  { atan2Deg := fun _ _ => 90
    toScene := fun p => p
    minSize := 16
    maxSize := 128
    handleSize := 10
    zoom := 1 }

/-- A concrete idle item. -/
def itemW : Item :=
  { posX := 3
    posY := 4
    horizontalSize := 100
    verticalSize := 50
    aspectRatio := 1/2
    scaledHandleSize := 10
    scaledInnerMargins := ⟨5, 5, 5, 5⟩
    handle := HandleType.None
    rotation := 0
    flipped := false
    selected := true
    zValue := 1
    cursor := CursorShape.ArrowCursor }

/-- The same item while dragging its right handle. -/
def itemDragW : Item :=
  { itemW with handle := HandleType.Right, cursor := CursorShape.ClosedHandCursor }

/-- A concrete scene state: the dragging item attached to a scene with no
other items. -/
def stW : EditorState :=
  { self := itemDragW
    attached := true
    others := []
    lastZ := 7 }

/-! Helper lemmas about C++ rounding. -/

theorem cppRound_dist (q : ℚ) : |(cppRound q : ℚ) - q| ≤ 1/2 := by
  unfold cppRound
  split
  · rw [abs_le]
    have h1 := Int.lt_floor_add_one (q + 1/2)
    have h2 := Int.floor_le (q + 1/2)
    constructor <;> linarith
  · rw [abs_le]
    have h1 := Int.le_ceil (q - 1/2)
    have h2 := Int.ceil_lt_add_one (q - 1/2)
    constructor <;> linarith

theorem cppRound_nearest (q : ℚ) (k : ℤ) :
    |(cppRound q : ℚ) - q| ≤ |(k : ℚ) - q| := by
  by_cases hk : k = cppRound q
  · rw [hk]
  · have h1 : |(cppRound q : ℚ) - q| ≤ 1/2 := cppRound_dist q
    have h2 : (1 : ℚ) ≤ |(k : ℚ) - (cppRound q : ℚ)| := by
      have h0 : (1 : ℤ) ≤ |k - cppRound q| := Int.one_le_abs (sub_ne_zero.mpr hk)
      calc (1 : ℚ) ≤ ((|k - cppRound q| : ℤ) : ℚ) := by exact_mod_cast h0
        _ = |((k - cppRound q : ℤ) : ℚ)| := Int.cast_abs
        _ = |(k : ℚ) - (cppRound q : ℚ)| := by push_cast; ring_nf
    have h3 : |(k : ℚ) - (cppRound q : ℚ)| ≤ |(k : ℚ) - q| + |q - (cppRound q : ℚ)| :=
      abs_sub_le _ _ _
    rw [abs_sub_comm q] at h3
    linarith

theorem snap_is_nearest (q : ℚ) (k : ℤ) :
    |(cppRound (q / kSnapAngle) : ℚ) * kSnapAngle - q| ≤ |(k : ℚ) * kSnapAngle - q| := by
  have h45 : (0 : ℚ) < kSnapAngle := by norm_num [kSnapAngle]
  have key : ∀ x : ℚ, x * kSnapAngle - q = (x - q / kSnapAngle) * kSnapAngle := by
    intro x; field_simp
  have hr := cppRound_nearest (q / kSnapAngle) k
  calc |(cppRound (q / kSnapAngle) : ℚ) * kSnapAngle - q|
      = |(cppRound (q / kSnapAngle) : ℚ) - q / kSnapAngle| * kSnapAngle := by
        rw [key, abs_mul, abs_of_pos h45]
    _ ≤ |(k : ℚ) - q / kSnapAngle| * kSnapAngle :=
        mul_le_mul_of_nonneg_right hr (le_of_lt h45)
    _ = |(k : ℚ) * kSnapAngle - q| := by
        rw [key, abs_mul, abs_of_pos h45]

/-! Helper lemmas about the handlers. -/

theorem ite_gt_eq_max (a b : ℤ) : (if a > b then a else b) = max a b := by
  rcases le_or_lt a b with h | h
  · rw [if_neg (not_lt.mpr h), max_eq_right h]
  · rw [if_pos h, max_eq_left h.le]

theorem cppClamp_eq_max_min (v lo hi : ℤ) (h : lo ≤ hi) :
    cppClamp v lo hi = max lo (min hi v) := by
  unfold cppClamp
  split <;> [skip; split] <;> omega

theorem cppClamp_le (v lo hi : ℤ) (h : lo ≤ hi) :
    lo ≤ cppClamp v lo hi ∧ cppClamp v lo hi ≤ hi := by
  unfold cppClamp
  split <;> [skip; split] <;> omega

theorem handleType_set_z (s : Item) (z : ℤ) (pos : QPointF) :
    handleType { s with zValue := z } pos = handleType s pos := rfl

theorem cppInt_intCast (n : ℤ) : cppInt (n : ℚ) = n := by
  unfold cppInt
  split <;> simp

theorem moveEvent_handle (cfg : Cfg) (s : Item) (pos dragTo : QPointF) (shift : Bool) :
    (mouseMoveEvent cfg s pos shift dragTo).handle = s.handle := by
  unfold mouseMoveEvent
  split
  · cases shift <;> simp [updateVerticalSize]
  · rfl

theorem press_handle (st : EditorState) (pos : QPointF) (b : MouseButton) :
    (mousePressEvent st pos b).self.handle =
      (if b = MouseButton.LeftButton then handleType st.self pos else st.self.handle) := by
  unfold mousePressEvent
  cases b <;> simp [handleType_set_z] <;> split <;> rfl

theorem contextMenu_handle (st : EditorState) :
    (contextMenuEvent st).1.self.handle = st.self.handle := by
  unfold contextMenuEvent
  dsimp only
  split <;> rfl

theorem setFlip_handle (s : Item) (v : Bool) : (setFlip s v).handle = s.handle := by
  unfold setFlip performFlip
  split <;> rfl

theorem isHandling_congr (s1 s2 : Item) (h : s1.handle = s2.handle) :
    isHandling s1 = isHandling s2 := by
  simp [isHandling, h]

/-! The claims. -/

/-- C10: `Normalized` is the identity strictly inside (-360, 360); for
360 ≤ |a| < 720 it subtracts 360·sign(a); hence for |a| < 720 the result lies
in the open interval (-360, 360), and Normalized(±360) = 0. -/
theorem normalized_characterization (a : ℚ) :
    (-360 < a → a < 360 → Normalized a = a) ∧
    (360 ≤ a → a < 720 → Normalized a = a - 360) ∧
    (-720 < a → a ≤ -360 → Normalized a = a + 360) ∧
    (|a| < 720 → -360 < Normalized a ∧ Normalized a < 360) ∧
    Normalized 360 = 0 ∧ Normalized (-360) = 0 := by
  refine ⟨?_, ?_, ?_, ?_, by norm_num [Normalized, abs], by norm_num [Normalized, abs]⟩
  · intro h1 h2
    have : |a| < 360 := abs_lt.mpr ⟨h1, h2⟩
    simp [Normalized, this]
  · intro h1 h2
    have hpos : ¬ a < 0 := by linarith
    have : ¬ |a| < 360 := by
      rw [abs_lt]; push_neg; intro h; linarith
    simp only [Normalized, if_neg this, if_neg hpos]
    ring
  · intro h1 h2
    have hneg : a < 0 := by linarith
    have : ¬ |a| < 360 := by
      rw [abs_lt]; push_neg; intro h; linarith
    simp only [Normalized, if_neg this, if_pos hneg]
    ring
  · intro h
    rw [abs_lt] at h
    by_cases habs : |a| < 360
    · rw [abs_lt] at habs
      have : |a| < 360 := abs_lt.mpr habs
      simp only [Normalized, if_pos this]
      constructor <;> linarith [habs.1, habs.2]
    · by_cases hneg : a < 0
      · have hle : a ≤ -360 := by
          rw [abs_lt] at habs; push_neg at habs
          by_contra hc
          push_neg at hc
          have := habs hc
          linarith
        simp only [Normalized, if_neg habs, if_pos hneg]
        constructor <;> linarith [h.1]
      · push_neg at hneg
        have hge : 360 ≤ a := by
          rw [abs_lt] at habs; push_neg at habs
          exact habs (by linarith)
        simp only [Normalized, if_neg habs, if_neg (not_lt.mpr hneg)]
        constructor <;> linarith [h.2]

/-- C10 witness: `Normalized` at the concrete inputs 400 and -400. -/
theorem normalized_characterization_witness :
    Normalized 400 = 400 - 360 ∧
    (-360 < Normalized 400 ∧ Normalized 400 < 360) ∧
    Normalized (-400) = -400 + 360 :=
  ⟨(normalized_characterization 400).2.1 (by norm_num) (by norm_num),
    (normalized_characterization 400).2.2.2.1 (by rw [abs_of_nonneg] <;> norm_num),
    (normalized_characterization (-400)).2.2.1 (by norm_num) (by norm_num)⟩

/-- C3: `handleType` prefers the right handle, then the left, else none; both
handle rectangles are squares of side `_scaledHandleSize` centered at
y = 0, x = ±(_horizontalSize / 2). -/
theorem handleType_characterization (s : Item) (pos : QPointF) :
    (handleType s pos = HandleType.Right ↔ (rightHandleRect s).contains pos = true) ∧
    (handleType s pos = HandleType.Left ↔
      ((rightHandleRect s).contains pos = false ∧ (leftHandleRect s).contains pos = true)) ∧
    (handleType s pos = HandleType.None ↔
      ((rightHandleRect s).contains pos = false ∧ (leftHandleRect s).contains pos = false)) ∧
    (rightHandleRect s).w = s.scaledHandleSize ∧
    (rightHandleRect s).h = s.scaledHandleSize ∧
    (rightHandleRect s).center = ⟨s.horizontalSize / 2, 0⟩ ∧
    (leftHandleRect s).w = s.scaledHandleSize ∧
    (leftHandleRect s).h = s.scaledHandleSize ∧
    (leftHandleRect s).center = ⟨-(s.horizontalSize / 2), 0⟩ := by
  refine ⟨?_, ?_, ?_, rfl, rfl, ?_, rfl, rfl, ?_⟩
  · by_cases h1 : (rightHandleRect s).contains pos <;>
      by_cases h2 : (leftHandleRect s).contains pos <;>
      simp [handleType, h1, h2]
  · by_cases h1 : (rightHandleRect s).contains pos <;>
      by_cases h2 : (leftHandleRect s).contains pos <;>
      simp [handleType, h1, h2]
  · by_cases h1 : (rightHandleRect s).contains pos <;>
      by_cases h2 : (leftHandleRect s).contains pos <;>
      simp [handleType, h1, h2]
  · simp only [rightHandleRect, QRectF.center]
    congr 1 <;> ring
  · simp only [leftHandleRect, QRectF.center]
    congr 1 <;> ring

/-- C7: `paint` draws nothing unless the option state has `State_Selected`;
when selected it strokes the inner rectangle with a dashed pen (white when
focused, gray otherwise) and fills ellipses over both handle rectangles. -/
theorem paint_selection_only (s : Item) (sel foc : Bool) :
    (sel = false → paint s sel foc = []) ∧
    (paint s true foc =
      [PaintOp.setPen ⟨if foc then PenColor.white else PenColor.gray, PenStyle.DashLine⟩,
        PaintOp.drawRect (innerRect s),
        PaintOp.setPen ⟨if foc then PenColor.white else PenColor.gray, PenStyle.SolidLine⟩,
        PaintOp.setBrush,
        PaintOp.drawEllipse (rightHandleRect s),
        PaintOp.drawEllipse (leftHandleRect s)]) := by
  constructor
  · intro h
    simp [paint, h]
  · cases foc <;> simp [paint, selectPen, selectPenInactive, PenStyled]

/-- C7 witness: `paint` at a concrete item, unselected and selected. -/
theorem paint_selection_only_witness :
    paint itemW false true = [] ∧
    paint itemW true true =
      [PaintOp.setPen ⟨PenColor.white, PenStyle.DashLine⟩,
        PaintOp.drawRect (innerRect itemW),
        PaintOp.setPen ⟨PenColor.white, PenStyle.SolidLine⟩,
        PaintOp.setBrush,
        PaintOp.drawEllipse (rightHandleRect itemW),
        PaintOp.drawEllipse (leftHandleRect itemW)] :=
  ⟨(paint_selection_only itemW false true).1 rfl,
    (paint_selection_only itemW true true).2⟩

/-- C8: every handler and accessor of the file is total: each one is defined
for all inputs and produces a plain result, with no error branch or failure
value. -/
theorem operations_total :
    (∀ cfg s pos shift dragTo, ∃ r, mouseMoveEvent cfg s pos shift dragTo = r) ∧
    (∀ st pos button, ∃ r, mousePressEvent st pos button = r) ∧
    (∀ st button, ∃ r, mouseReleaseEvent st button = r) ∧
    (∀ s pos, ∃ r, hoverMoveEvent s pos = r) ∧
    (∀ s sel foc, ∃ ops, paint s sel foc = ops) ∧
    (∀ s pos, ∃ t, handleType s pos = t) ∧
    (∀ s v, ∃ r, setFlip s v = r) ∧
    (∀ s ratio, ∃ r, setAspectRatio s ratio = r) ∧
    (∀ st, ∃ r, contextMenuEvent st = r) ∧
    (∀ s, ∃ r, innerRect s = r) ∧
    (∀ s, ∃ r, boundingRect s = r) ∧
    (∀ s, ∃ r, contentRect s = r) ∧
    (∀ s, ∃ r, rightHandleRect s = r) ∧
    (∀ s, ∃ r, leftHandleRect s = r) :=
  ⟨fun _ _ _ _ _ => ⟨_, rfl⟩, fun _ _ _ => ⟨_, rfl⟩, fun _ _ => ⟨_, rfl⟩,
    fun _ _ => ⟨_, rfl⟩, fun _ _ _ => ⟨_, rfl⟩, fun _ _ => ⟨_, rfl⟩,
    fun _ _ => ⟨_, rfl⟩, fun _ _ => ⟨_, rfl⟩, fun _ => ⟨_, rfl⟩,
    fun _ => ⟨_, rfl⟩, fun _ => ⟨_, rfl⟩, fun _ => ⟨_, rfl⟩,
    fun _ => ⟨_, rfl⟩, fun _ => ⟨_, rfl⟩⟩

/-- C1: during a handle drag with Shift held, `mouseMoveEvent` sets the
rotation to `round(angle / 45) * 45` for the normalized pointer angle
(`dragAngle`: the atan2 angle from the item's center to the scene pointer
position, offset by 180° when the left handle is active, then `Normalized`);
the result is the multiple of 45° nearest to that angle. -/
theorem shift_drag_snaps_rotation (cfg : Cfg) (s : Item) (pos dragTo : QPointF)
    (h : isHandling s = true) :
    ((mouseMoveEvent cfg s pos true dragTo).rotation
        = (cppRound (dragAngle cfg s pos / kSnapAngle) : ℚ) * kSnapAngle) ∧
    (∃ k : ℤ, (mouseMoveEvent cfg s pos true dragTo).rotation = (k : ℚ) * kSnapAngle) ∧
    (∀ k : ℤ, |(mouseMoveEvent cfg s pos true dragTo).rotation - dragAngle cfg s pos|
        ≤ |(k : ℚ) * kSnapAngle - dragAngle cfg s pos|) := by
  have hrot : (mouseMoveEvent cfg s pos true dragTo).rotation
      = (cppRound (dragAngle cfg s pos / kSnapAngle) : ℚ) * kSnapAngle := by
    simp [mouseMoveEvent, h]
  exact ⟨hrot, ⟨_, hrot⟩, fun k => hrot ▸ snap_is_nearest (dragAngle cfg s pos) k⟩

/-- C1 witness: a concrete right-handle drag with Shift held. -/
theorem shift_drag_snaps_rotation_witness :
    ((mouseMoveEvent cfgW itemDragW ⟨10, 10⟩ true ⟨0, 0⟩).rotation
        = (cppRound (dragAngle cfgW itemDragW ⟨10, 10⟩ / kSnapAngle) : ℚ) * kSnapAngle) ∧
    |(mouseMoveEvent cfgW itemDragW ⟨10, 10⟩ true ⟨0, 0⟩).rotation
        - dragAngle cfgW itemDragW ⟨10, 10⟩|
      ≤ |((2 : ℤ) : ℚ) * kSnapAngle - dragAngle cfgW itemDragW ⟨10, 10⟩| :=
  ⟨(shift_drag_snaps_rotation cfgW itemDragW ⟨10, 10⟩ ⟨0, 0⟩ (by decide)).1,
    (shift_drag_snaps_rotation cfgW itemDragW ⟨10, 10⟩ ⟨0, 0⟩ (by decide)).2.2 2⟩

/-- C2: during a handle drag without Shift, `mouseMoveEvent` sets the
horizontal size to `max(int(2*p.x), int(2*p.y))` — with `p` the item-local
pointer, negated componentwise for the left handle — clamped to the inclusive
range `[photoEditorItemMinSize, photoEditorItemMaxSize]`, and the vertical
size to the new horizontal size times the aspect ratio. -/
theorem resize_drag_geometry (cfg : Cfg) (s : Item) (pos dragTo : QPointF)
    (h : isHandling s = true) (hrange : cfg.minSize ≤ cfg.maxSize) :
    ((mouseMoveEvent cfg s pos false dragTo).horizontalSize
        = ((cppClamp
            (max (cppInt (2 * (if s.handle = HandleType.Left then pos.neg else pos).x))
              (cppInt (2 * (if s.handle = HandleType.Left then pos.neg else pos).y)))
            cfg.minSize cfg.maxSize : ℤ) : ℚ)) ∧
    ((mouseMoveEvent cfg s pos false dragTo).horizontalSize
        = ((max cfg.minSize (min cfg.maxSize
            (max (cppInt (2 * (if s.handle = HandleType.Left then pos.neg else pos).x))
              (cppInt (2 * (if s.handle = HandleType.Left then pos.neg else pos).y)))) : ℤ) : ℚ)) ∧
    ((cfg.minSize : ℚ) ≤ (mouseMoveEvent cfg s pos false dragTo).horizontalSize) ∧
    ((mouseMoveEvent cfg s pos false dragTo).horizontalSize ≤ (cfg.maxSize : ℚ)) ∧
    ((mouseMoveEvent cfg s pos false dragTo).verticalSize
        = (mouseMoveEvent cfg s pos false dragTo).horizontalSize * s.aspectRatio) ∧
    ((mouseMoveEvent cfg s pos false dragTo).aspectRatio = s.aspectRatio) := by
  have e1 : (mouseMoveEvent cfg s pos false dragTo).horizontalSize
      = ((cppClamp
          (max (cppInt (2 * (if s.handle = HandleType.Left then pos.neg else pos).x))
            (cppInt (2 * (if s.handle = HandleType.Left then pos.neg else pos).y)))
          cfg.minSize cfg.maxSize : ℤ) : ℚ) := by
    simp [mouseMoveEvent, h, updateVerticalSize, ite_gt_eq_max]
  have e2 : (mouseMoveEvent cfg s pos false dragTo).aspectRatio = s.aspectRatio := by
    simp [mouseMoveEvent, h, updateVerticalSize]
  have e3 : (mouseMoveEvent cfg s pos false dragTo).verticalSize
      = (mouseMoveEvent cfg s pos false dragTo).horizontalSize * s.aspectRatio := by
    simp [mouseMoveEvent, h, updateVerticalSize]
  have hcl := cppClamp_le
    (max (cppInt (2 * (if s.handle = HandleType.Left then pos.neg else pos).x))
      (cppInt (2 * (if s.handle = HandleType.Left then pos.neg else pos).y)))
    cfg.minSize cfg.maxSize hrange
  refine ⟨e1, ?_, ?_, ?_, e3, e2⟩
  · rw [e1, cppClamp_eq_max_min _ _ _ hrange]
  · rw [e1]
    exact_mod_cast hcl.1
  · rw [e1]
    exact_mod_cast hcl.2

/-- C2 witness: a concrete right-handle drag without Shift. -/
theorem resize_drag_geometry_witness :
    ((mouseMoveEvent cfgW itemDragW ⟨30, 20⟩ false ⟨0, 0⟩).horizontalSize
        = ((cppClamp
            (max (cppInt (2 * (if itemDragW.handle = HandleType.Left
                then QPointF.neg ⟨30, 20⟩ else (⟨30, 20⟩ : QPointF)).x))
              (cppInt (2 * (if itemDragW.handle = HandleType.Left
                then QPointF.neg ⟨30, 20⟩ else (⟨30, 20⟩ : QPointF)).y)))
            cfgW.minSize cfgW.maxSize : ℤ) : ℚ)) ∧
    ((cfgW.minSize : ℚ) ≤ (mouseMoveEvent cfgW itemDragW ⟨30, 20⟩ false ⟨0, 0⟩).horizontalSize) ∧
    ((mouseMoveEvent cfgW itemDragW ⟨30, 20⟩ false ⟨0, 0⟩).verticalSize
        = (mouseMoveEvent cfgW itemDragW ⟨30, 20⟩ false ⟨0, 0⟩).horizontalSize
            * itemDragW.aspectRatio) :=
  ⟨(resize_drag_geometry cfgW itemDragW ⟨30, 20⟩ ⟨0, 0⟩ (by decide) (by decide)).1,
    (resize_drag_geometry cfgW itemDragW ⟨30, 20⟩ ⟨0, 0⟩ (by decide) (by decide)).2.2.1,
    (resize_drag_geometry cfgW itemDragW ⟨30, 20⟩ ⟨0, 0⟩ (by decide) (by decide)).2.2.2.2.1⟩

/-- C4: `contextMenuEvent` builds a menu of exactly three actions in order
delete, flip, duplicate; delete removes the item from the scene and flip sets
the flip state to the negation of the current `flipped()` value. -/
theorem contextMenu_three_actions (cfg : Cfg) (st : EditorState) :
    ((contextMenuEvent st).2
        = [MenuAction.deleteItem, MenuAction.flipItem, MenuAction.duplicateItem]) ∧
    (st.attached = true → (applyMenuAction cfg st MenuAction.deleteItem).attached = false) ∧
    ((applyMenuAction cfg st MenuAction.flipItem).self.flipped = !st.self.flipped) := by
  refine ⟨rfl, ?_, ?_⟩
  · intro h
    simp [applyMenuAction, deleteAction, h]
  · cases hb : st.self.flipped <;>
      simp [applyMenuAction, flipAction, setFlip, performFlip, flipped, hb]

/-- C4 witness: the context menu on a concrete attached item. -/
theorem contextMenu_three_actions_witness :
    ((contextMenuEvent stW).2
        = [MenuAction.deleteItem, MenuAction.flipItem, MenuAction.duplicateItem]) ∧
    ((applyMenuAction cfgW stW MenuAction.deleteItem).attached = false) ∧
    ((applyMenuAction cfgW stW MenuAction.flipItem).self.flipped = !stW.self.flipped) :=
  ⟨(contextMenu_three_actions cfgW stW).1,
    (contextMenu_three_actions cfgW stW).2.1 (by decide),
    (contextMenu_three_actions cfgW stW).2.2⟩

/-- C5 counterexample: the duplicated item's scene position is not exactly
the original's offset by `_horizontalSize / 3`: the constructor's `int x`
parameter truncates the offset coordinate (here `3 + 100/3 = 109/3` becomes
`36`). -/
theorem duplicate_offset_not_exact :
    ¬((duplicatedItem cfgW stW).posX
        = stW.self.posX + stW.self.horizontalSize / 3) := by
  simp only [duplicatedItem, itemCtor, setFlip, performFlip, flipped,
    stW, itemDragW, itemW, cfgW]
  norm_num [cppInt]

/-- C5 (amended): when the duplicate action fires with the item attached to a
scene, the new item keeps the original's rotation and flip state; its
horizontal size is the original's truncated to `int` (hence equal whenever the
original size is a whole number, as every size stored by this file is); its
scene position is the original's offset by `(_horizontalSize / 3,
_verticalSize / 3)` with each coordinate then truncated to `int` by the
constructor's integer parameters; and it becomes the only selected item of
the resulting scene. -/
theorem duplicate_semantics (cfg : Cfg) (st : EditorState) (h : st.attached = true) :
    ((duplicatedItem cfg st).horizontalSize
        = ((cppInt st.self.horizontalSize : ℤ) : ℚ)) ∧
    ((∃ n : ℤ, st.self.horizontalSize = (n : ℚ)) →
      (duplicatedItem cfg st).horizontalSize = st.self.horizontalSize) ∧
    ((duplicatedItem cfg st).rotation = st.self.rotation) ∧
    ((duplicatedItem cfg st).flipped = st.self.flipped) ∧
    ((duplicatedItem cfg st).posX
        = ((cppInt (st.self.posX + st.self.horizontalSize / 3) : ℤ) : ℚ)) ∧
    ((duplicatedItem cfg st).posY
        = ((cppInt (st.self.posY + st.self.verticalSize / 3) : ℤ) : ℚ)) ∧
    ((duplicateAction cfg st).others
        = st.others.map deselect ++ [duplicatedItem cfg st]) ∧
    (∀ it, it ∈ (duplicateAction cfg st).self :: (duplicateAction cfg st).others →
      (it.selected = true ↔ it = duplicatedItem cfg st)) := by
  have hsel : (duplicatedItem cfg st).selected = true := by
    simp [duplicatedItem]
  have hact : duplicateAction cfg st =
      { st with
        self := deselect st.self
        others := st.others.map deselect ++ [duplicatedItem cfg st]
        lastZ := st.lastZ + 1 } := by
    simp [duplicateAction, h]
  have hsize : (duplicatedItem cfg st).horizontalSize
      = ((cppInt st.self.horizontalSize : ℤ) : ℚ) := by
    cases hb : st.self.flipped <;>
      simp [duplicatedItem, setFlip, performFlip, itemCtor, flipped, hb]
  refine ⟨hsize, ?_, ?_, ?_, ?_, ?_, by rw [hact], ?_⟩
  · rintro ⟨n, hn⟩
    rw [hsize, hn, cppInt_intCast]
  · cases hb : st.self.flipped <;>
      simp [duplicatedItem, setFlip, performFlip, itemCtor, flipped, hb]
  · cases hb : st.self.flipped <;>
      simp [duplicatedItem, setFlip, performFlip, itemCtor, flipped, hb]
  · cases hb : st.self.flipped <;>
      simp [duplicatedItem, setFlip, performFlip, itemCtor, flipped, hb]
  · cases hb : st.self.flipped <;>
      simp [duplicatedItem, setFlip, performFlip, itemCtor, flipped, hb]
  · intro it hit
    rw [hact] at hit
    simp only [List.mem_cons, List.mem_append, List.mem_map, List.mem_singleton] at hit
    constructor
    · intro hsel2
      rcases hit with rfl | ⟨x, hx, rfl⟩ | rfl | hemp
      · exact absurd hsel2 (by simp [deselect])
      · exact absurd hsel2 (by simp [deselect])
      · rfl
      · exact absurd hemp (List.not_mem_nil it)
    · intro heq
      rw [heq]
      exact hsel

/-- C5 witness: duplicating a concrete attached item with a whole-number
size. -/
theorem duplicate_semantics_witness :
    ((duplicatedItem cfgW stW).horizontalSize = stW.self.horizontalSize) ∧
    ((duplicatedItem cfgW stW).posX
        = ((cppInt (stW.self.posX + stW.self.horizontalSize / 3) : ℤ) : ℚ)) ∧
    ((duplicatedItem cfgW stW).selected = true ↔
      duplicatedItem cfgW stW = duplicatedItem cfgW stW) :=
  ⟨(duplicate_semantics cfgW stW (by decide)).2.1 ⟨100, by norm_num [stW, itemDragW, itemW]⟩,
    (duplicate_semantics cfgW stW (by decide)).2.2.2.2.1,
    (duplicate_semantics cfgW stW (by decide)).2.2.2.2.2.2.2
      (duplicatedItem cfgW stW) (by simp [duplicateAction, stW])⟩

/-- C6: across all the entry points of this file, a left press grabs the
handle that the press position hit-tests to, a left release drops it, and no
other handler changes it — so `isHandling` holds exactly between a left press
on a handle and the next left release. -/
theorem handling_transitions (cfg : Cfg) (st : EditorState) (e : Event) :
    isHandling (applyEvent cfg st e).self =
      (match e with
        | Event.mousePress pos MouseButton.LeftButton =>
            decide (handleType st.self pos ≠ HandleType.None)
        | Event.mouseRelease MouseButton.LeftButton => false
        | _ => isHandling st.self) := by
  cases e with
  | mouseMove pos shift dragTo =>
      exact isHandling_congr _ _ (moveEvent_handle cfg st.self pos dragTo shift)
  | mousePress pos button =>
      cases button with
      | LeftButton =>
          show isHandling (mousePressEvent st pos MouseButton.LeftButton).self = _
          rw [show isHandling (mousePressEvent st pos MouseButton.LeftButton).self
              = decide ((mousePressEvent st pos MouseButton.LeftButton).self.handle
                  ≠ HandleType.None) from rfl]
          rw [press_handle]
          simp
      | RightButton =>
          refine isHandling_congr _ _ ?_
          show (mousePressEvent st pos MouseButton.RightButton).self.handle = st.self.handle
          rw [press_handle]
          simp
  | mouseRelease button =>
      cases button with
      | LeftButton =>
          cases hi : isHandling st.self with
          | false => simp [applyEvent, mouseReleaseEvent, hi]
          | true =>
              have hne : ¬(st.self.handle = HandleType.None) := by
                simpa [isHandling] using hi
              simp [applyEvent, mouseReleaseEvent, hi, isHandling, hne]
      | RightButton =>
          simp [applyEvent, mouseReleaseEvent]
  | hoverMove pos => exact isHandling_congr _ _ rfl
  | contextMenu => exact isHandling_congr _ _ (contextMenu_handle st)
  | menuAct a =>
      cases a with
      | deleteItem =>
          refine isHandling_congr _ _ ?_
          show (deleteAction st).self.handle = st.self.handle
          unfold deleteAction
          split <;> rfl
      | flipItem =>
          exact isHandling_congr _ _ (setFlip_handle st.self (!flipped st.self))
      | duplicateItem =>
          refine isHandling_congr _ _ ?_
          show (duplicateAction cfg st).self.handle = st.self.handle
          unfold duplicateAction
          split <;> rfl
  | paintReq sel foc => exact isHandling_congr _ _ rfl

/-- C9: `setAspectRatio` and the resize branch of `mouseMoveEvent` establish
`_verticalSize = _horizontalSize * _aspectRatio`, and no other entry point of
the file changes `_horizontalSize`, `_verticalSize` or `_aspectRatio`: a
Shift-move leaves all three unchanged, a move on a non-handling item (the
inherited-drag fall-through) leaves all three unchanged for either Shift
state, and so does every non-move event. -/
theorem aspect_ratio_invariant (cfg : Cfg) (st : EditorState) (s : Item) (ratio : ℚ)
    (pos dragTo : QPointF) (sh : Bool) (e : Event) :
    ((setAspectRatio s ratio).verticalSize
        = (setAspectRatio s ratio).horizontalSize * (setAspectRatio s ratio).aspectRatio) ∧
    (isHandling s = true →
      (mouseMoveEvent cfg s pos false dragTo).verticalSize
        = (mouseMoveEvent cfg s pos false dragTo).horizontalSize
            * (mouseMoveEvent cfg s pos false dragTo).aspectRatio) ∧
    (sizeState (mouseMoveEvent cfg s pos true dragTo) = sizeState s) ∧
    (isHandling s = false →
      sizeState (mouseMoveEvent cfg s pos sh dragTo) = sizeState s) ∧
    (e.isMouseMove = false → sizeState (applyEvent cfg st e).self = sizeState st.self) := by
  refine ⟨?_, ?_, ?_, ?_, ?_⟩
  · simp [setAspectRatio, updateVerticalSize]
  · intro h
    simp [mouseMoveEvent, h, updateVerticalSize]
  · by_cases h : isHandling s <;> simp [mouseMoveEvent, h, sizeState]
  · intro h
    simp [mouseMoveEvent, h, sizeState]
  · intro hne
    cases e with
    | mouseMove _ _ _ => simp [Event.isMouseMove] at hne
    | mousePress pos b =>
        show sizeState (mousePressEvent st pos b).self = sizeState st.self
        unfold mousePressEvent
        cases b <;> dsimp only <;> split <;> split <;> rfl
    | mouseRelease b =>
        show sizeState (mouseReleaseEvent st b).self = sizeState st.self
        unfold mouseReleaseEvent
        split <;> rfl
    | hoverMove pos => rfl
    | contextMenu =>
        show sizeState (contextMenuEvent st).1.self = sizeState st.self
        unfold contextMenuEvent
        dsimp only
        split <;> rfl
    | menuAct a =>
        cases a with
        | deleteItem =>
            show sizeState (deleteAction st).self = sizeState st.self
            unfold deleteAction
            split <;> rfl
        | flipItem =>
            show sizeState (setFlip st.self (!flipped st.self)) = sizeState st.self
            unfold setFlip performFlip
            split <;> rfl
        | duplicateItem =>
            show sizeState (duplicateAction cfg st).self = sizeState st.self
            unfold duplicateAction
            split <;> rfl
    | paintReq sel foc => rfl

/-- C9 witness: the invariant at a concrete resize drag, field preservation
at a concrete non-handling move, and at a concrete non-move event. -/
theorem aspect_ratio_invariant_witness :
    ((setAspectRatio itemW (1/2)).verticalSize
        = (setAspectRatio itemW (1/2)).horizontalSize
            * (setAspectRatio itemW (1/2)).aspectRatio) ∧
    ((mouseMoveEvent cfgW itemDragW ⟨30, 20⟩ false ⟨0, 0⟩).verticalSize
        = (mouseMoveEvent cfgW itemDragW ⟨30, 20⟩ false ⟨0, 0⟩).horizontalSize
            * (mouseMoveEvent cfgW itemDragW ⟨30, 20⟩ false ⟨0, 0⟩).aspectRatio) ∧
    (sizeState (mouseMoveEvent cfgW itemW ⟨30, 20⟩ false ⟨9, 9⟩) = sizeState itemW) ∧
    (sizeState (applyEvent cfgW stW Event.contextMenu).self = sizeState stW.self) :=
  ⟨(aspect_ratio_invariant cfgW stW itemW (1/2) ⟨30, 20⟩ ⟨0, 0⟩ false Event.contextMenu).1,
    (aspect_ratio_invariant cfgW stW itemDragW (1/2) ⟨30, 20⟩ ⟨0, 0⟩ false
      Event.contextMenu).2.1 (by decide),
    (aspect_ratio_invariant cfgW stW itemW (1/2) ⟨30, 20⟩ ⟨9, 9⟩ false
      Event.contextMenu).2.2.2.1 (by decide),
    (aspect_ratio_invariant cfgW stW itemW (1/2) ⟨30, 20⟩ ⟨0, 0⟩ false
      Event.contextMenu).2.2.2.2 (by decide)⟩

end Editor
